import Mathlib

/-!
Verification of the metadata aggregation and classification pipeline of the
Mythic Art Explorer app (`extract_stats` in `app.py`, lines 329-368).

The pipeline consumes a list of semi-structured museum-object records
(JSON-like mappings with optional, heterogeneously typed fields) and folds
them into summary statistics: a year list, medium/culture/classification/tag
multisets, a vessel-example list, an accession-year list, and a
Greek/Roman/Other category count table.

The embedding models Python values with an inductive `Value` type and models
Python exceptions (`TypeError` from `re.search` on a non-string,
`AttributeError` from calling a `str` method on a non-string) with an
`Except` monad.  Strings are modelled as Lean strings with ASCII character
classification (Python's Unicode-aware `str.lower`, `str.strip`, `str.isdigit`
and `\d` are restricted to their ASCII behaviour); floats are modelled
opaquely by their decimal literal (only their truthiness and their not being
`int`/`str` matter to the pipeline).
-/

/-- Python-style runtime errors that `extract_stats` can raise. -/
inductive PyErr where
  /-- `TypeError`: e.g. `re.search` applied to a non-string. -/
  | typeError
  /-- `AttributeError`: a `str` method (`strip`, `lower`) called on a non-string. -/
  | attributeError
deriving DecidableEq, Repr

/-- Model of a JSON-like Python value as stored in a museum-object record. -/
inductive Value where
  /-- Python `None` (also used for an absent key via `dict.get`). -/
  | vNull
  /-- a Python `int` -/
  | vInt (n : Int)
  /-- a Python `float`, modelled opaquely by its decimal literal
      (e.g. "19.5"); only its truthiness and its type matter here. -/
  | vFloat (lit : String)
  /-- a Python `str` -/
  | vStr (s : String)
  /-- a Python `list` -/
  | vList (items : List Value)
  /-- a Python `dict` with string keys -/
  | vDict (entries : List (String × Value))

/-- A raw museum-object record: a mapping from string keys to values. -/
abbrev Record := List (String × Value)

/-- Python `m.get(k)`: the value stored at key `k`, or `None` when absent. -/
def getField (m : Record) (k : String) : Value :=
  (((m.find? fun p => p.fst == k).map Prod.snd).getD .vNull)

/-- Python truthiness of a value (`bool(v)`).  A float is falsy exactly when
its literal denotes zero (`0.0` / `-0.0`). -/
def truthy : Value → Bool
  | .vNull => false
  | .vInt n => if n = 0 then false else true
  | .vFloat lit => if lit = "0.0" then false else if lit = "-0.0" then false else true
  | .vStr s => if s = "" then false else true
  | .vList items => match items with | [] => false | _ :: _ => true
  | .vDict entries => match entries with | [] => false | _ :: _ => true

/-- Python `a or b` on values: `a` if truthy, else `b`. -/
def pyOrV (a b : Value) : Value := if truthy a then a else b

/-- Python `a or b` on strings (a string is truthy iff nonempty). -/
def pyOrS (a b : String) : String := if a = "" then b else a

/-- Python `str(v)`.  Containers are rendered opaquely: no property below
depends on the rendering of a list or dict coerced to a string. -/
def pyStr : Value → String
  | .vNull => "None"
  | .vInt n => toString n
  | .vFloat lit => lit
  | .vStr s => s
  | .vList _ => "[...]"
  | .vDict _ => "\x7b...\x7d"

/-- The ASCII upper-case to lower-case letter table. -/
def upperLower : List (Char × Char) :=
  [('A', 'a'), ('B', 'b'), ('C', 'c'), ('D', 'd'), ('E', 'e'), ('F', 'f'),
   ('G', 'g'), ('H', 'h'), ('I', 'i'), ('J', 'j'), ('K', 'k'), ('L', 'l'),
   ('M', 'm'), ('N', 'n'), ('O', 'o'), ('P', 'p'), ('Q', 'q'), ('R', 'r'),
   ('S', 's'), ('T', 't'), ('U', 'u'), ('V', 'v'), ('W', 'w'), ('X', 'x'),
   ('Y', 'y'), ('Z', 'z')]

/-- ASCII lower-casing of one character, as Python `str.lower` acts on
ASCII letters (non-ASCII characters do not occur in any keyword below). -/
def lowerChar (c : Char) : Char :=
  (((upperLower.find? fun p => p.fst == c).map Prod.snd).getD c)

/-- Python `s.lower()` (ASCII fragment). -/
def pyLower (s : String) : String := ⟨s.data.map lowerChar⟩

/-- Whitespace characters removed by Python `str.strip()` (ASCII fragment). -/
def isPySpace (c : Char) : Bool :=
  c = ' ' || c = '\t' || c = '\n' || c = '\r' || c = '\x0b' || c = '\x0c'

/-- Strip leading and trailing whitespace from a character list. -/
def stripList (l : List Char) : List Char :=
  (((l.dropWhile isPySpace).reverse.dropWhile isPySpace).reverse)

/-- Python `s.strip()`. -/
def pyStrip (s : String) : String := ⟨stripList s.data⟩

/-- Decides whether `pat` is a prefix of `l`. -/
def isPre : List Char → List Char → Bool
  | [], _ => true
  | _ :: _, [] => false
  | a :: pat, b :: l => if a = b then isPre pat l else false

/-- Decides whether `pat` occurs as a contiguous run inside `l`
(scanning left to right). -/
def containsSub (pat : List Char) : List Char → Bool
  | [] => isPre pat []
  | c :: rest => isPre pat (c :: rest) || containsSub pat rest

/-- Python `pat in s` for strings: substring containment. -/
def pyContains (s pat : String) : Bool := containsSub pat.data s.data

/-- Python `s.isdigit()` (ASCII fragment): nonempty and all decimal digits. -/
def pyIsDigit (s : String) : Bool := !s.data.isEmpty && s.data.all Char.isDigit

/-- Value of a decimal digit string (most significant digit first). -/
def digitsToNatAux (acc : Nat) : List Char → Nat
  | [] => acc
  | c :: cs => digitsToNatAux (acc * 10 + (c.toNat - '0'.toNat)) cs

/-- Value of a decimal digit string. -/
def digitsToNat (l : List Char) : Nat := digitsToNatAux 0 l

/-- First match of the regular expression `-?\d{1,4}` in a character list, as
found by Python `re.search`: scan left to right; at the first position where
either a digit stands, or a minus sign directly followed by a digit stands,
match the optional sign and then greedily up to four digits.  Returns the
sign and the matched digits. -/
def findYearMatch : List Char → Option (Bool × List Char)
  | [] => none
  | c :: rest =>
    if c.isDigit then some (false, ((c :: rest).takeWhile Char.isDigit).take 4)
    else if c = '-' then
      match rest with
      | [] => none
      | d :: _ =>
        if d.isDigit then some (true, (rest.takeWhile Char.isDigit).take 4)
        else findYearMatch rest
    else findYearMatch rest

/-- Integer value of a `findYearMatch` result (`int(mo.group(0))`). -/
def matchToInt (p : Bool × List Char) : Int :=
  if p.fst then -(digitsToNat p.snd : Int) else (digitsToNat p.snd : Int)

/-- The year extracted from a free-text date string by the `re.search`
fallback of `extract_stats`: first match of `-?\d{1,4}`, parsed as an
integer. -/
def yearOfText (s : String) : Option Int := (findYearMatch s.data).map matchToInt

/-- Conversion demanded by `re.search(pattern, od)`: succeeds only on a
string, otherwise Python raises a `TypeError`. -/
def asStr : Value → Except PyErr String
  | .vStr s => .ok s
  | _ => .error .typeError

/-- Conversion demanded by calling a `str` method (`.strip()` / `.lower()`)
on a value: succeeds only on a string, otherwise Python raises an
`AttributeError`. -/
def strAttr : Value → Except PyErr String
  | .vStr s => .ok s
  | _ => .error .attributeError

/-- The mutable accumulators of `extract_stats` (`years`, `mediums`,
`cultures`, `classes`, `tags`, `vases`, `acqs` and the `gvr` dict, whose
three keys `greek` / `roman` / `other` are fixed at initialisation).  The
returned dict wraps the string lists into `collections.Counter` multisets;
the lists themselves carry all the information of those counters. -/
structure Stats where
  years : List Int
  mediums : List String
  cultures : List String
  classes : List String
  tags : List String
  vases : List Value
  acqs : List Int
  gvrGreek : Nat
  gvrRoman : Nat
  gvrOther : Nat

/-- The initial accumulator state of `extract_stats`. -/
def initStats : Stats :=
  { years := [], mediums := [], cultures := [], classes := [], tags := []
    vases := [], acqs := [], gvrGreek := 0, gvrRoman := 0, gvrOther := 0 }

/-- Lines 333-340: `y = m.get("objectBeginDate")`; an `int` is appended to
`years` directly; otherwise `od = m.get("objectDate") or ""` is searched with
`re.search(r"-?\d{1,4}", od)` and the first match is parsed with `int` (the
surrounding `try`/`except` never fires, since the matched text is a sign and
decimal digits). -/
def stepYear (st : Stats) (m : Record) : Except PyErr Stats :=
  match getField m "objectBeginDate" with
  | .vInt n => .ok { st with years := st.years ++ [n] }
  | _ =>
    match asStr (pyOrV (getField m "objectDate") (.vStr "")) with
    | .error e => .error e
    | .ok od =>
      match findYearMatch od.data with
      | some mt => .ok { st with years := st.years ++ [matchToInt mt] }
      | none => .ok st

/-- Line 350: `term = it.get("term") if isinstance(it, dict) else str(it)`. -/
def termOf (it : Value) : Value :=
  match it with
  | .vDict d => getField d "term"
  | _ => .vStr (pyStr it)

/-- Lines 350-351 for one tag element: `if term: tags.append(term.lower())`.
Calling `.lower()` on a truthy non-string term raises `AttributeError`. -/
def tagStep (st : Stats) (it : Value) : Except PyErr Stats :=
  if truthy (termOf it) then
    match strAttr (termOf it) with
    | .error e => .error e
    | .ok s => .ok { st with tags := st.tags ++ [pyLower s] }
  else .ok st

/-- Iteration of `tagStep` over the elements of a tags list. -/
def tagFold (st : Stats) : List Value → Except PyErr Stats
  | [] => .ok st
  | it :: rest =>
    match tagStep st it with
    | .error e => .error e
    | .ok st => tagFold st rest

/-- Lines 347-351: `t = m.get("tags") or []`; only a `list` is iterated. -/
def stepTags (st : Stats) (m : Record) : Except PyErr Stats :=
  match pyOrV (getField m "tags") (.vList []) with
  | .vList items => tagFold st items
  | _ => .ok st

/-- Line 353, first disjunct keyword list (note: no "vessel"). -/
def vesselClassKw : List String := ["vase", "amphora", "pottery", "ceramic", "terracott"]

/-- Line 353, second disjunct keyword list. -/
def vesselMedKw : List String := ["vase", "ceramic", "terracotta", "earthenware"]

/-- Line 353: the vessel condition over the already stripped classification
and medium strings:
`any(k in (cl or "").lower() for k in [...]) or any(k in (med or "").lower() for k in [...])`. -/
def vesselCond (cl med : String) : Bool :=
  (vesselClassKw.any fun k => pyContains (pyLower (pyOrS cl "")) k) ||
  (vesselMedKw.any fun k => pyContains (pyLower (pyOrS med "")) k)

/-- Lines 353-354: when the vessel condition holds, `vases.append(title or cl or med)`
(a Python value: `title` is the raw `m.get("title") or m.get("objectName") or ""`). -/
def stepVessel (st : Stats) (titleV : Value) (cl med : String) : Stats :=
  if vesselCond cl med then
    { st with vases := st.vases ++ [pyOrV titleV (pyOrV (.vStr cl) (.vStr med))] }
  else st

/-- Lines 355-358: `acc = m.get("accessionYear")`; an `int` is appended as is;
a string of decimal digits is parsed with `int`; anything else is skipped. -/
def stepAcq (st : Stats) (m : Record) : Stats :=
  match getField m "accessionYear" with
  | .vInt n => { st with acqs := st.acqs ++ [n] }
  | .vStr s => if pyIsDigit s then { st with acqs := st.acqs ++ [(digitsToNat s.data : Int)] } else st
  | _ => st

/-- The three-way category of the Greek/Roman/Other heuristic. -/
inductive Category where
  | greek
  | roman
  | other
deriving DecidableEq, Repr

/-- Line 361 condition: `"roman" in period or "roman" in tl` (after both
strings are lower-cased). -/
def romanCondS (period title : String) : Bool :=
  pyContains (pyLower period) "roman" || pyContains (pyLower title) "roman"

/-- Line 362 condition: `"greek" in period or "classical" in period or
"hellenistic" in period or "greek" in tl` (after lower-casing).  Note that
"classical" and "hellenistic" are tested against the period only. -/
def greekCondS (period title : String) : Bool :=
  pyContains (pyLower period) "greek" || pyContains (pyLower period) "classical" ||
  pyContains (pyLower period) "hellenistic" || pyContains (pyLower title) "greek"

/-- Lines 359-363: the Greek/Roman/Other classifier over the raw period and
title strings (the code lower-cases both before the substring tests). -/
def classifyCategory (period title : String) : Category :=
  if romanCondS period title then .roman
  else if greekCondS period title then .greek
  else .other

/-- Lines 359-363 as executed per record: `period = (m.get("period") or "").lower()`
(raising `AttributeError` on a truthy non-string), `tl = title.lower()`
(likewise), then the three-way classification increments one `gvr` counter. -/
def stepCategory (st : Stats) (titleV : Value) (m : Record) : Except PyErr Stats :=
  match strAttr (pyOrV (getField m "period") (.vStr "")) with
  | .error e => .error e
  | .ok period =>
    match strAttr titleV with
    | .error e => .error e
    | .ok title =>
      match classifyCategory period title with
      | .roman => .ok { st with gvrRoman := st.gvrRoman + 1 }
      | .greek => .ok { st with gvrGreek := st.gvrGreek + 1 }
      | .other => .ok { st with gvrOther := st.gvrOther + 1 }

/-- Lines 341-342: `med = (m.get("medium") or "").strip()` has already been
computed; `if med: mediums.append(med.lower())`. -/
def addMedium (st : Stats) (med : String) : Stats :=
  if med = "" then st else { st with mediums := st.mediums ++ [pyLower med] }

/-- Lines 343-344: `if cult: cultures.append(cult)`. -/
def addCulture (st : Stats) (cult : String) : Stats :=
  if cult = "" then st else { st with cultures := st.cultures ++ [cult] }

/-- Lines 345-346: `if cl: classes.append(cl)`. -/
def addClass (st : Stats) (cl : String) : Stats :=
  if cl = "" then st else { st with classes := st.classes ++ [cl] }

/-- Line 352: `title = (m.get("title") or m.get("objectName") or "")`. -/
def titleValue (m : Record) : Value :=
  pyOrV (pyOrV (getField m "title") (getField m "objectName")) (.vStr "")

/-- Lines 332-363: the loop body of `extract_stats` for one record `m`:
year, medium, culture, classification, tags, title and vessel detection,
accession year, category.  The three string extractions can each raise an
`AttributeError` (on a truthy non-string field); the `stepYear` search can
raise a `TypeError`; all the pure accumulator updates are interleaved in
source order between them (an exception discards the whole run, so grouping
the pure updates after the extractions leaves the result unchanged). -/
def processRecord (st : Stats) (m : Record) : Except PyErr Stats :=
  match stepYear st m with
  | .error e => .error e
  | .ok st =>
    match strAttr (pyOrV (getField m "medium") (.vStr "")) with
    | .error e => .error e
    | .ok med0 =>
      match strAttr (pyOrV (getField m "culture") (.vStr "")) with
      | .error e => .error e
      | .ok cult0 =>
        match strAttr (pyOrV (getField m "classification") (.vStr "")) with
        | .error e => .error e
        | .ok cl0 =>
          match stepTags (addClass (addCulture (addMedium st (pyStrip med0)) (pyStrip cult0)) (pyStrip cl0)) m with
          | .error e => .error e
          | .ok st =>
            stepCategory (stepAcq (stepVessel st (titleValue m) (pyStrip cl0) (pyStrip med0)) m) (titleValue m) m

/-- The fold of `processRecord` over the record list. -/
def statsFold (st : Stats) : List Record → Except PyErr Stats
  | [] => .ok st
  | m :: rest =>
    match processRecord st m with
    | .error e => .error e
    | .ok st => statsFold st rest

/-- Lines 329-368: `extract_stats(ds)`.  Returns the final accumulators, or
the Python exception the loop raises. -/
def extract_stats (ds : List Record) : Except PyErr Stats := statsFold initStats ds

/-- Whether an `extract_stats` run completed without raising. -/
def statsOk (r : Except PyErr Stats) : Bool :=
  match r with
  | .ok _ => true
  | .error _ => false

/-- Sum of the three category counters of the `gvr` table. -/
def gsum (st : Stats) : Nat := st.gvrGreek + st.gvrRoman + st.gvrOther

/-- The category classifier over optional period and title strings, a missing
input being treated as the empty string (exactly how `extract_stats` feeds
absent fields into the lines 359-363 tests via `or ""`). -/
def classifyCategoryOpt (period title : Option String) : Category :=
  classifyCategory (period.getD "") (title.getD "")

/-- The ROMAN condition of the claims over optional strings: the lower-cased
period or title contains the substring "roman". -/
def romanCondOpt (period title : Option String) : Bool :=
  romanCondS (period.getD "") (title.getD "")

/-- The GREEK condition exactly as the code tests it, over optional strings:
"greek" / "classical" / "hellenistic" in the lower-cased period, or "greek"
in the lower-cased title. -/
def greekCondOpt (period title : Option String) : Bool :=
  greekCondS (period.getD "") (title.getD "")

/-- The GREEK condition as the specification words it: either lower-cased
input contains "greek", "classical", or "hellenistic" as a substring.  Kept
separate from `greekCondOpt` to compare the spec against the code. -/
def greekCondClaim (period title : Option String) : Bool :=
  (["greek", "classical", "hellenistic"].any fun k => pyContains (pyLower (period.getD "")) k) ||
  (["greek", "classical", "hellenistic"].any fun k => pyContains (pyLower (title.getD "")) k)

/-- The vessel flag as `extract_stats` computes it from the raw classification
and medium fields (missing treated as empty string): both fields are stripped
(lines 341, 345) before the line 353 keyword tests run on them. -/
def isVessel (classification medium : Option String) : Bool :=
  vesselCond (pyStrip (classification.getD "")) (pyStrip (medium.getD ""))

/-- The vessel flag as the specification words it: lower-cased classification
contains one of "vase", "vessel", "amphora", "pottery", "ceramic",
"terracott", or lower-cased medium contains one of "vase", "ceramic",
"terracotta", "earthenware"; pure substring containment on the raw inputs.
Kept separate from `isVessel` to compare the spec against the code. -/
def isVesselClaim (classification medium : Option String) : Bool :=
  (["vase", "vessel", "amphora", "pottery", "ceramic", "terracott"].any
    fun k => pyContains (pyLower (classification.getD "")) k) ||
  (["vase", "ceramic", "terracotta", "earthenware"].any
    fun k => pyContains (pyLower (medium.getD "")) k)

/-- The vessel flag of the amended claim: as `isVesselClaim` but without the
keyword "vessel", which the code never tests for. -/
def isVesselAmended (classification medium : Option String) : Bool :=
  (["vase", "amphora", "pottery", "ceramic", "terracott"].any
    fun k => pyContains (pyLower (classification.getD "")) k) ||
  (["vase", "ceramic", "terracotta", "earthenware"].any
    fun k => pyContains (pyLower (medium.getD "")) k)

/-- The display string of the original claim: title if present (nonempty),
else classification, else medium, else objectName, else the empty string. -/
def displayTitleClaim (title classification medium objectName : Option String) : String :=
  if title.getD "" = "" then
    if classification.getD "" = "" then
      if medium.getD "" = "" then objectName.getD "" else medium.getD ""
    else classification.getD ""
  else title.getD ""

/-- The display string the code actually appends for a vessel record with
string-valued fields: first nonempty of title, objectName, classification,
medium, else the empty string (`title or objectName or ""`, then
`title or cl or med`). -/
def displayCode (title objectName cl med : String) : String :=
  if title = "" then (if objectName = "" then (if cl = "" then med else cl) else objectName)
  else title

/-- Accession year normalization as the claims word it: an integer is
returned unchanged, a string of decimal digits is parsed, everything else
yields no value. -/
def normalizeAccessionYear (v : Value) : Option Int :=
  match v with
  | .vInt n => some n
  | .vStr s => if pyIsDigit s then some (digitsToNat s.data : Int) else none
  | _ => none

/-- The elements a tags field value contributes: the elements of a list,
nothing otherwise. -/
def tagItems (v : Value) : List Value :=
  match v with
  | .vList items => items
  | _ => []

/-- Tag normalization as the original claim words it: term of a mapping, else
string coercion; skip a value that is None or empty after trimming;
lower-case kept values; keep order and duplicates.  (Defined only over
string-or-None terms; `extract_stats` raises on other truthy terms.) -/
def normalizeTagsClaim (v : Value) : List String :=
  go (tagItems v)
where
  /-- fold of the per-element rule -/
  go : List Value → List String
  | [] => []
  | it :: rest =>
    match termOf it with
    | .vStr s => if pyStrip s = "" then go rest else pyLower s :: go rest
    | _ => go rest

/-- Tag normalization as the amended claim words it: term of a mapping, else
string coercion; skip a value that is falsy (None or the empty string, with
no trimming, so whitespace-only values are kept); lower-case kept values;
keep order and duplicates. -/
def normalizeTagsAmended (v : Value) : List String :=
  go (tagItems v)
where
  /-- fold of the per-element rule -/
  go : List Value → List String
  | [] => []
  | it :: rest =>
    match termOf it with
    | .vStr s => if s = "" then go rest else pyLower s :: go rest
    | _ => go rest

/-- A value acceptable where `extract_stats` treats a field as a string: if
it is truthy it must actually be a string (falsy values of any type collapse
to the empty string through `or ""` or are skipped). -/
def StrField (v : Value) : Prop := truthy v = true → ∃ s, v = .vStr s

/-- A record on which `extract_stats` raises no exception: every field the
code pipes into a string operation is, when truthy, an actual string, and so
is every truthy tag term. -/
def WellFormedRec (m : Record) : Prop :=
  StrField (getField m "objectDate") ∧ StrField (getField m "medium") ∧
  StrField (getField m "culture") ∧ StrField (getField m "classification") ∧
  StrField (getField m "period") ∧ StrField (getField m "title") ∧
  StrField (getField m "objectName") ∧
  ∀ it ∈ tagItems (getField m "tags"), StrField (termOf it)

/-! ### Category counter lemmas: every processed record increments exactly one of the three category counters -/

theorem stepYear_gsum {st st' : Stats} {m : Record} (h : stepYear st m = .ok st') :
    gsum st' = gsum st := by
  unfold stepYear at h
  split at h
  · injection h with h; subst h; rfl
  · split at h
    · exact Except.noConfusion h
    · split at h
      · injection h with h; subst h; rfl
      · injection h with h; subst h; rfl

theorem stepCategory_gsum {st st' : Stats} {t : Value} {m : Record}
    (h : stepCategory st t m = .ok st') : gsum st' = gsum st + 1 := by
  unfold stepCategory at h
  split at h
  · exact Except.noConfusion h
  · split at h
    · exact Except.noConfusion h
    · split at h
      · injection h with h; subst h; simp [gsum]; omega
      · injection h with h; subst h; simp [gsum]; omega
      · injection h with h; subst h; simp [gsum]; omega

theorem tagStep_gsum {st st' : Stats} {it : Value} (h : tagStep st it = .ok st') :
    gsum st' = gsum st := by
  unfold tagStep at h
  split at h
  · split at h
    · exact Except.noConfusion h
    · injection h with h; subst h; rfl
  · injection h with h; subst h; rfl

theorem tagFold_gsum {items : List Value} : ∀ {st st' : Stats},
    tagFold st items = .ok st' → gsum st' = gsum st := by
  induction items with
  | nil => intro st st' h; injection h with h; subst h; rfl
  | cons it rest ih =>
    intro st st' h
    unfold tagFold at h
    split at h
    · exact Except.noConfusion h
    · next st₁ hstep => exact (ih h).trans (tagStep_gsum hstep)

theorem stepTags_gsum {st st' : Stats} {m : Record} (h : stepTags st m = .ok st') :
    gsum st' = gsum st := by
  unfold stepTags at h
  split at h
  · exact tagFold_gsum h
  · injection h with h; subst h; rfl

theorem stepVessel_gsum (st : Stats) (t : Value) (cl med : String) :
    gsum (stepVessel st t cl med) = gsum st := by
  unfold stepVessel; split <;> rfl

theorem stepAcq_gsum (st : Stats) (m : Record) : gsum (stepAcq st m) = gsum st := by
  unfold stepAcq; split
  · rfl
  · split <;> rfl
  · rfl

theorem addMedium_gsum (st : Stats) (s : String) : gsum (addMedium st s) = gsum st := by
  unfold addMedium; split <;> rfl

theorem addCulture_gsum (st : Stats) (s : String) : gsum (addCulture st s) = gsum st := by
  unfold addCulture; split <;> rfl

theorem addClass_gsum (st : Stats) (s : String) : gsum (addClass st s) = gsum st := by
  unfold addClass; split <;> rfl

theorem processRecord_gsum {st st' : Stats} {m : Record} (h : processRecord st m = .ok st') :
    gsum st' = gsum st + 1 := by
  unfold processRecord at h
  split at h
  · exact Except.noConfusion h
  · next st₁ hy =>
    split at h
    · exact Except.noConfusion h
    · split at h
      · exact Except.noConfusion h
      · split at h
        · exact Except.noConfusion h
        · split at h
          · exact Except.noConfusion h
          · next st₂ htags =>
            have h1 := stepYear_gsum hy
            have h3 := stepTags_gsum htags
            have h4 := stepCategory_gsum h
            rw [stepAcq_gsum, stepVessel_gsum] at h4
            rw [h4, h3, addClass_gsum, addCulture_gsum, addMedium_gsum, h1]

theorem statsFold_gsum {ds : List Record} : ∀ {st st' : Stats},
    statsFold st ds = .ok st' → gsum st' = gsum st + ds.length := by
  induction ds with
  | nil => intro st st' h; injection h with h; subst h; simp
  | cons m rest ih =>
    intro st st' h
    unfold statsFold at h
    split at h
    · exact Except.noConfusion h
    · next st₁ hp =>
      have := ih h
      have := processRecord_gsum hp
      simp [List.length_cons]
      omega

/-! ### Lemmas about the string model -/

theorem isPre_iff (pat l : List Char) : isPre pat l = true ↔ pat <+: l := by
  induction pat generalizing l with
  | nil => simp [isPre]
  | cons a pat ih =>
    cases l with
    | nil => simp [isPre]
    | cons b l =>
      simp only [isPre, List.cons_prefix_cons]
      by_cases h : a = b
      · simp [h, ih]
      · simp [h]

theorem containsSub_iff (pat l : List Char) : containsSub pat l = true ↔ pat <:+: l := by
  induction l with
  | nil => simp [containsSub, isPre_iff]
  | cons c rest ih =>
    simp only [containsSub, Bool.or_eq_true, isPre_iff, ih, List.infix_cons_iff]

theorem infix_dropWhile_iff (pat l : List Char) (h1 : pat ≠ [])
    (h2 : ∀ c ∈ pat, isPySpace c = false) :
    pat <:+: l.dropWhile isPySpace ↔ pat <:+: l := by
  induction l with
  | nil => simp
  | cons c rest ih =>
    by_cases hc : isPySpace c = true
    · rw [List.dropWhile_cons, if_pos hc, ih, List.infix_cons_iff]
      constructor
      · exact Or.inr
      · rintro (hp | hi)
        · cases pat with
          | nil => exact absurd rfl h1
          | cons a pat =>
            rw [List.cons_prefix_cons] at hp
            rw [hp.1] at h2
            have := h2 c (List.mem_cons_self c pat)
            rw [hc] at this
            exact Bool.noConfusion this
        · exact hi
    · rw [List.dropWhile_cons, if_neg hc]

theorem infix_rev_iff (q B : List Char) : q <:+: B.reverse ↔ q.reverse <:+: B := by
  constructor
  · intro h
    have h2 := List.reverse_infix.mpr h
    rwa [List.reverse_reverse] at h2
  · intro h
    have h2 := List.reverse_infix.mpr h
    rwa [List.reverse_reverse] at h2

theorem infix_strip_iff (pat l : List Char) (h1 : pat ≠ [])
    (h2 : ∀ c ∈ pat, isPySpace c = false) :
    pat <:+: stripList l ↔ pat <:+: l := by
  have h1r : pat.reverse ≠ [] := by
    intro hx; exact h1 (List.reverse_eq_nil_iff.mp hx)
  have h2r : ∀ c ∈ pat.reverse, isPySpace c = false := by
    intro c hc; exact h2 c (List.mem_reverse.mp hc)
  unfold stripList
  rw [infix_rev_iff, infix_dropWhile_iff _ _ h1r h2r, List.reverse_infix]
  exact infix_dropWhile_iff _ _ h1 h2

theorem containsSub_strip (pat l : List Char) (h1 : pat ≠ [])
    (h2 : ∀ c ∈ pat, isPySpace c = false) :
    containsSub pat (stripList l) = containsSub pat l := by
  have h := (containsSub_iff pat (stripList l)).trans
    ((infix_strip_iff pat l h1 h2).trans (containsSub_iff pat l).symm)
  cases hA : containsSub pat (stripList l) <;> cases hB : containsSub pat l <;> simp_all

theorem isPySpace_lowerChar (c : Char) : isPySpace (lowerChar c) = isPySpace c := by
  unfold lowerChar
  cases hf : upperLower.find? (fun p => p.fst == c) with
  | none => rfl
  | some p =>
    have hmem := List.mem_of_find?_eq_some hf
    have hpred := List.find?_some hf
    have hc : p.fst = c := by simpa using hpred
    have hall : ∀ q ∈ upperLower, isPySpace q.fst = false ∧ isPySpace q.snd = false := by decide
    have hok := hall p hmem
    simp only [Option.map_some', Option.getD_some]
    rw [hok.2, ← hc, hok.1]

theorem dropWhile_map_lower (l : List Char) :
    (l.map lowerChar).dropWhile isPySpace = (l.dropWhile isPySpace).map lowerChar := by
  induction l with
  | nil => rfl
  | cons c rest ih =>
    rw [List.map_cons, List.dropWhile_cons, List.dropWhile_cons, isPySpace_lowerChar]
    by_cases h : isPySpace c = true
    · rw [if_pos h, if_pos h, ih]
    · rw [if_neg h, if_neg h, List.map_cons]

theorem stripList_map_lower (l : List Char) :
    stripList (l.map lowerChar) = (stripList l).map lowerChar := by
  unfold stripList
  rw [dropWhile_map_lower, ← List.map_reverse, dropWhile_map_lower, ← List.map_reverse]

theorem pyContains_strip_lower (s k : String) (h1 : k.data ≠ [])
    (h2 : ∀ c ∈ k.data, isPySpace c = false) :
    pyContains (pyLower (pyStrip s)) k = pyContains (pyLower s) k := by
  show containsSub k.data ((stripList s.data).map lowerChar) = containsSub k.data (s.data.map lowerChar)
  rw [← stripList_map_lower]
  exact containsSub_strip _ _ h1 h2

theorem pyOrS_empty (s : String) : pyOrS s "" = s := by
  unfold pyOrS
  by_cases h : s = ""
  · rw [if_pos h, h]
  · rw [if_neg h]

theorem vessel_kw_strip (c m : Option String) :
    isVessel c m = isVesselAmended c m := by
  unfold isVessel isVesselAmended vesselCond vesselClassKw vesselMedKw
  simp only [List.any_cons, List.any_nil, Bool.or_false, pyOrS_empty]
  rw [pyContains_strip_lower (c.getD "") "vase" (by decide) (by decide),
      pyContains_strip_lower (c.getD "") "amphora" (by decide) (by decide),
      pyContains_strip_lower (c.getD "") "pottery" (by decide) (by decide),
      pyContains_strip_lower (c.getD "") "ceramic" (by decide) (by decide),
      pyContains_strip_lower (c.getD "") "terracott" (by decide) (by decide),
      pyContains_strip_lower (m.getD "") "vase" (by decide) (by decide),
      pyContains_strip_lower (m.getD "") "ceramic" (by decide) (by decide),
      pyContains_strip_lower (m.getD "") "terracotta" (by decide) (by decide),
      pyContains_strip_lower (m.getD "") "earthenware" (by decide) (by decide)]

/-! ### Sufficient conditions for an exception-free run -/

theorem strField_or_str {v : Value} (h : StrField v) : ∃ s, pyOrV v (.vStr "") = .vStr s := by
  by_cases ht : truthy v = true
  · obtain ⟨s, rfl⟩ := h ht
    exact ⟨s, by unfold pyOrV; rw [if_pos ht]⟩
  · exact ⟨"", by unfold pyOrV; rw [if_neg ht]⟩

theorem strAttr_or_ok {v : Value} (h : StrField v) : ∃ s, strAttr (pyOrV v (.vStr "")) = .ok s := by
  obtain ⟨s, hs⟩ := strField_or_str h
  exact ⟨s, by rw [hs]; rfl⟩

theorem asStr_or_ok {v : Value} (h : StrField v) : ∃ s, asStr (pyOrV v (.vStr "")) = .ok s := by
  obtain ⟨s, hs⟩ := strField_or_str h
  exact ⟨s, by rw [hs]; rfl⟩

theorem stepYear_ok (st : Stats) (m : Record) (h : StrField (getField m "objectDate")) :
    ∃ st', stepYear st m = .ok st' := by
  obtain ⟨s, hs⟩ := asStr_or_ok h
  unfold stepYear
  split
  · exact ⟨_, rfl⟩
  · simp only [hs]
    cases hf : findYearMatch s.data
    · exact ⟨_, rfl⟩
    · exact ⟨_, rfl⟩

theorem tagStep_ok (st : Stats) (it : Value) (h : StrField (termOf it)) :
    ∃ st', tagStep st it = .ok st' := by
  unfold tagStep
  by_cases ht : truthy (termOf it) = true
  · obtain ⟨s, hs⟩ := h ht
    rw [if_pos ht, hs]
    exact ⟨_, rfl⟩
  · rw [if_neg ht]
    exact ⟨_, rfl⟩

theorem tagFold_ok (items : List Value) : ∀ st : Stats,
    (∀ it ∈ items, StrField (termOf it)) → ∃ st', tagFold st items = .ok st' := by
  induction items with
  | nil => intro st _; exact ⟨st, rfl⟩
  | cons it rest ih =>
    intro st h
    obtain ⟨st₁, h1⟩ := tagStep_ok st it (h it (List.mem_cons_self it rest))
    obtain ⟨st₂, h2⟩ := ih st₁ (fun x hx => h x (List.mem_cons_of_mem it hx))
    refine ⟨st₂, ?_⟩
    unfold tagFold
    simp only [h1]
    exact h2

theorem stepTags_ok (st : Stats) (m : Record)
    (h : ∀ it ∈ tagItems (getField m "tags"), StrField (termOf it)) :
    ∃ st', stepTags st m = .ok st' := by
  unfold stepTags
  by_cases ht : truthy (getField m "tags") = true
  · rw [show pyOrV (getField m "tags") (.vList []) = getField m "tags" from by unfold pyOrV; rw [if_pos ht]]
    cases hv : getField m "tags" with
    | vList items =>
      refine tagFold_ok items st ?_
      intro it hit
      exact h it (by rw [hv]; exact hit)
    | vNull => exact ⟨st, rfl⟩
    | vInt n => exact ⟨st, rfl⟩
    | vFloat l => exact ⟨st, rfl⟩
    | vStr s => exact ⟨st, rfl⟩
    | vDict d => exact ⟨st, rfl⟩
  · rw [show pyOrV (getField m "tags") (.vList []) = .vList [] from by unfold pyOrV; rw [if_neg ht]]
    exact ⟨st, rfl⟩

theorem titleValue_str (m : Record) (h1 : StrField (getField m "title"))
    (h2 : StrField (getField m "objectName")) : ∃ s, titleValue m = .vStr s := by
  unfold titleValue pyOrV
  by_cases ht : truthy (getField m "title") = true
  · obtain ⟨s, hs⟩ := h1 ht
    rw [hs] at ht
    rw [hs, if_pos ht, if_pos ht]
    exact ⟨s, rfl⟩
  · rw [if_neg ht]
    by_cases ho : truthy (getField m "objectName") = true
    · obtain ⟨s, hs⟩ := h2 ho
      rw [hs] at ho
      rw [hs, if_pos ho]
      exact ⟨s, rfl⟩
    · rw [if_neg ho]
      exact ⟨"", rfl⟩

theorem stepCategory_ok (st : Stats) (m : Record) (ts : String)
    (hp : StrField (getField m "period")) :
    ∃ st', stepCategory st (.vStr ts) m = .ok st' := by
  obtain ⟨ps, hps⟩ := strAttr_or_ok hp
  unfold stepCategory
  simp only [hps]
  simp only [strAttr]
  cases hc : classifyCategory ps ts <;> simp only [hc] <;> exact ⟨_, rfl⟩

theorem processRecord_ok (st : Stats) (m : Record) (h : WellFormedRec m) :
    ∃ st', processRecord st m = .ok st' := by
  obtain ⟨hod, hmed, hcult, hcl, hper, htit, hobj, htags⟩ := h
  obtain ⟨st₁, h1⟩ := stepYear_ok st m hod
  obtain ⟨ms, hms⟩ := strAttr_or_ok hmed
  obtain ⟨cs, hcs⟩ := strAttr_or_ok hcult
  obtain ⟨cls, hcls⟩ := strAttr_or_ok hcl
  obtain ⟨st₂, h2⟩ := stepTags_ok
    (addClass (addCulture (addMedium st₁ (pyStrip ms)) (pyStrip cs)) (pyStrip cls)) m htags
  obtain ⟨tvs, htv⟩ := titleValue_str m htit hobj
  obtain ⟨st₃, h3⟩ :=
    stepCategory_ok (stepAcq (stepVessel st₂ (.vStr tvs) (pyStrip cls) (pyStrip ms)) m) m tvs hper
  refine ⟨st₃, ?_⟩
  unfold processRecord
  simp only [h1, hms, hcs, hcls, h2, htv]
  exact h3

theorem statsFold_ok (ds : List Record) : ∀ st : Stats,
    (∀ m ∈ ds, WellFormedRec m) → ∃ st', statsFold st ds = .ok st' := by
  induction ds with
  | nil => intro st _; exact ⟨st, rfl⟩
  | cons m rest ih =>
    intro st h
    obtain ⟨st₁, h1⟩ := processRecord_ok st m (h m (List.mem_cons_self m rest))
    obtain ⟨st₂, h2⟩ := ih st₁ (fun x hx => h x (List.mem_cons_of_mem m hx))
    refine ⟨st₂, ?_⟩
    unfold statsFold
    simp only [h1]
    exact h2

/-! ### Helper facts for witnesses -/

theorem strField_null : StrField .vNull := fun h => Bool.noConfusion h

theorem strField_str (s : String) : StrField (.vStr s) := fun _ => ⟨s, rfl⟩

/-! ### The claims -/

/-- C1, counterexample: contrary to the claim, a record whose `objectDate`
is a truthy non-string (here the integer 7) makes `extract_stats` raise a
`TypeError` from `re.search`. -/
theorem C1_counterexample :
    extract_stats [[("objectDate", Value.vInt 7)]] = .error .typeError := rfl

/-- C1 (amended): `extract_stats` raises no exception on any sequence of
records in which every field that the code pipes into a string operation
(`objectDate`, `medium`, `culture`, `classification`, `period`, `title`,
`objectName`, and the term of each tag element) is, whenever truthy, an
actual string; malformed values of any other shape (missing fields, falsy
values of wrong type, non-list tags, non-digit accession strings, floats)
are tolerated and treated as absent. -/
theorem C1_theorem (ds : List Record) (h : ∀ m ∈ ds, WellFormedRec m) :
    statsOk (extract_stats ds) = true := by
  obtain ⟨st, hst⟩ := statsFold_ok ds initStats h
  unfold extract_stats
  rw [hst]
  rfl

/-- C1, witness: a concrete well-formed but partial record list runs
exception-free. -/
theorem C1_witness :
    statsOk (extract_stats [[("title", Value.vStr "Greek vase"),
      ("objectBeginDate", Value.vInt (-450)), ("accessionYear", Value.vFloat "19.5")]]) = true :=
  C1_theorem _ (by
    intro m hm
    rw [List.mem_singleton] at hm
    subst hm
    exact ⟨strField_null, strField_null, strField_null, strField_null, strField_null,
      strField_str "Greek vase", strField_null, fun it hit => absurd hit (List.not_mem_nil it)⟩)

/-- C2, counterexample: contrary to the claim, a title containing
"classical" (with no "roman" anywhere and no Greek keyword in the period)
is NOT classified GREEK: the code tests "classical" and "hellenistic"
against the period only, so this record lands in OTHER. -/
theorem C2_counterexample :
    romanCondOpt none (some "classical relief") = false ∧
    greekCondClaim none (some "classical relief") = true ∧
    classifyCategoryOpt none (some "classical relief") = .other := ⟨by decide, by decide, by decide⟩

/-- C2 (amended): for every pair of optional strings (period, title) with
neither lower-cased input containing "roman", the record is classified
GREEK if and only if the lower-cased period contains "greek", "classical",
or "hellenistic", or the lower-cased title contains "greek"; a title alone
containing "classical" or "hellenistic" does not yield GREEK.  In
particular a title alone containing "greek" does. -/
theorem C2_theorem :
    (∀ p t : Option String, romanCondOpt p t = false →
      (classifyCategoryOpt p t = .greek ↔ greekCondOpt p t = true)) ∧
    classifyCategoryOpt none (some "Greek vase") = .greek := by
  refine ⟨?_, by decide⟩
  intro p t h
  unfold romanCondOpt at h
  unfold classifyCategoryOpt classifyCategory greekCondOpt
  rw [h]
  by_cases hg : greekCondS (p.getD "") (t.getD "") = true
  · simp [hg]
  · simp [hg]

/-- C2, witness: a period containing "hellenistic" classifies as GREEK. -/
theorem C2_witness :
    classifyCategoryOpt (some "Hellenistic period") (some "") = .greek ↔
      greekCondOpt (some "Hellenistic period") (some "") = true :=
  C2_theorem.1 (some "Hellenistic period") (some "") (by decide)

/-- C3, counterexample: contrary to the claim, a classification equal to
"Vessel" is NOT flagged as a vessel: the code's classification keyword list
has no "vessel" entry. -/
theorem C3_counterexample :
    isVessel (some "Vessel") none = false ∧ isVesselClaim (some "Vessel") none = true :=
  ⟨by decide, by decide⟩

/-- C3 (amended): for every pair of optional strings (classification,
medium), the vessel flag is true if and only if the lower-cased
classification contains one of "vase", "amphora", "pottery", "ceramic",
"terracott" (no "vessel" keyword), or the lower-cased medium contains one
of "vase", "ceramic", "terracotta", "earthenware"; missing inputs are
treated as empty strings and matching is pure substring containment.  The
spec's worked examples all hold. -/
theorem C3_theorem :
    (∀ c m : Option String, isVessel c m = isVesselAmended c m) ∧
    isVessel (some "Sculpture") (some "terracotta") = true ∧
    isVessel (some "Vases") (some "marble") = true ∧
    isVessel (some "Sculpture") (some "marble") = false :=
  ⟨vessel_kw_strip, by decide, by decide, by decide⟩

/-- C4: for every pair of optional strings (period, title), if the
lower-cased period or title contains "roman" the record is classified
ROMAN; the ROMAN test strictly precedes the GREEK test, so the spec's
example containing both "roman" and "greek" yields ROMAN. -/
theorem C4_theorem :
    (∀ p t : Option String, romanCondOpt p t = true → classifyCategoryOpt p t = .roman) ∧
    classifyCategoryOpt (some "Roman copy of a Greek original") (some "") = .roman ∧
    greekCondClaim (some "Roman copy of a Greek original") (some "") = true := by
  refine ⟨?_, by decide, by decide⟩
  intro p t h
  unfold romanCondOpt at h
  unfold classifyCategoryOpt classifyCategory
  rw [h]
  rfl

/-- C4, witness: a period containing "Roman" classifies as ROMAN. -/
theorem C4_witness : classifyCategoryOpt (some "Roman sculpture") none = .roman :=
  C4_theorem.1 (some "Roman sculpture") none (by decide)

/-- C5: for every record, if `objectBeginDate` is an integer the year
appended is exactly that integer (sign preserved, BCE values untouched);
otherwise the first left-to-right match of `-?\d{1,4}` in the string that
`objectDate or ""` yields is parsed and appended, and nothing is appended
when there is no match; in particular "18th century" yields 18, not 1800. -/
theorem C5_theorem :
    (∀ (st : Stats) (m : Record) (n : Int), getField m "objectBeginDate" = .vInt n →
      stepYear st m = .ok { st with years := st.years ++ [n] }) ∧
    (∀ (st : Stats) (m : Record) (s : String),
      (∀ k : Int, getField m "objectBeginDate" ≠ .vInt k) →
      pyOrV (getField m "objectDate") (.vStr "") = .vStr s →
      stepYear st m = .ok { st with years := st.years ++ (yearOfText s).toList }) ∧
    yearOfText "18th century" = some 18 := by
  refine ⟨?_, ?_, by decide⟩
  · intro st m n h
    unfold stepYear
    rw [h]
  · intro st m s hnot hs
    unfold stepYear
    cases hb : getField m "objectBeginDate"
    case vInt k => exact absurd hb (hnot k)
    all_goals
      simp only [hs, asStr]
      cases hf : findYearMatch s.data <;> simp [yearOfText, hf]

/-- C5, witness: a negative structured year passes through unchanged, and
the free-text fallback on "18th century" contributes 18. -/
theorem C5_witness :
    stepYear initStats [("objectBeginDate", Value.vInt (-530))] =
      .ok { initStats with years := [-530] } ∧
    stepYear initStats [("objectDate", Value.vStr "18th century")] =
      .ok { initStats with years := [18] } :=
  ⟨C5_theorem.1 initStats _ (-530) rfl,
   C5_theorem.2.1 initStats _ "18th century" (fun _ h => Value.noConfusion h) rfl⟩

/-- C6: every record is classified into exactly one category: whenever
`extract_stats` completes, the sum of the three category counters equals
the number of input records, and a record with no usable fields at all
still contributes one count to OTHER. -/
theorem C6_theorem :
    (∀ (ds : List Record) (st : Stats), extract_stats ds = .ok st →
      st.gvrGreek + st.gvrRoman + st.gvrOther = ds.length) ∧
    extract_stats [[]] = .ok { initStats with gvrOther := 1 } := by
  constructor
  · intro ds st h
    unfold extract_stats at h
    have h2 := statsFold_gsum h
    unfold gsum at h2
    simp only [initStats] at h2
    omega
  · rfl

/-- C6, witness: on the one-element list holding an empty record the sum of
the category counters is 1. -/
theorem C6_witness :
    ({ initStats with gvrOther := 1 } : Stats).gvrGreek +
      ({ initStats with gvrOther := 1 } : Stats).gvrRoman +
      ({ initStats with gvrOther := 1 } : Stats).gvrOther = 1 :=
  C6_theorem.1 [[]] { initStats with gvrOther := 1 } rfl

/-- C7, counterexample: contrary to the claim's fallback order (title,
classification, medium, objectName), a vessel record with no title but both
an objectName and a classification gets its objectName as the appended
display string: the code computes `title or objectName or ""` first and
only then falls back to classification and medium. -/
theorem C7_counterexample :
    extract_stats [[("objectName", Value.vStr "Amphora"), ("classification", Value.vStr "Vases")]] =
      .ok { initStats with classes := ["Vases"], vases := [Value.vStr "Amphora"], gvrOther := 1 } ∧
    displayTitleClaim none (some "Vases") none (some "Amphora") = "Vases" ∧
    ("Amphora" : String) ≠ "Vases" := ⟨rfl, rfl, by decide⟩

/-- C7 (amended): for every record flagged as a vessel whose title and
objectName fields hold strings, the appended display value is the first
nonempty of title, objectName, classification, medium — and the empty
string (never None) when all four are empty. -/
theorem C7_theorem (st : Stats) (t o cl med : String) (h : vesselCond cl med = true) :
    stepVessel st (pyOrV (pyOrV (.vStr t) (.vStr o)) (.vStr "")) cl med =
      { st with vases := st.vases ++ [.vStr (displayCode t o cl med)] } := by
  unfold stepVessel
  rw [if_pos h]
  unfold pyOrV truthy displayCode
  by_cases ht : t = "" <;> by_cases ho : o = "" <;> by_cases hcl : cl = "" <;>
    simp [ht, ho, hcl]

/-- C7, witness: with an empty title the objectName "Amphora" is appended
for a record whose classification "Vases" flags it as a vessel. -/
theorem C7_witness :
    stepVessel initStats (pyOrV (pyOrV (.vStr "") (.vStr "Amphora")) (.vStr "")) "Vases" "marble" =
      { initStats with vases := [Value.vStr "Amphora"] } :=
  C7_theorem initStats "" "Amphora" "Vases" "marble" (by decide)

/-- The tags contributed by folding `tagStep` over a list of string-or-falsy
tag elements are exactly the ones of the amended normalization rule, in
order. -/
theorem tagFold_norm (items : List Value) : ∀ st : Stats,
    (∀ it ∈ items, StrField (termOf it)) →
    tagFold st items = .ok { st with tags := st.tags ++ normalizeTagsAmended.go items } := by
  induction items with
  | nil =>
    intro st _
    simp [tagFold, normalizeTagsAmended.go]
  | cons it rest ih =>
    intro st h
    have hrest : ∀ x ∈ rest, StrField (termOf x) := fun x hx => h x (List.mem_cons_of_mem it hx)
    by_cases ht : truthy (termOf it) = true
    · obtain ⟨s, hs⟩ := h it (List.mem_cons_self it rest) ht
      have hne : s ≠ "" := by
        rw [hs] at ht
        simp only [truthy] at ht
        by_cases hx : s = ""
        · rw [if_pos hx] at ht; exact Bool.noConfusion ht
        · exact hx
      unfold tagFold tagStep
      rw [if_pos ht, hs]
      simp only [strAttr]
      rw [ih _ hrest]
      simp only [normalizeTagsAmended.go, hs]
      rw [if_neg hne]
      simp
    · unfold tagFold tagStep
      rw [if_neg ht]
      show tagFold st rest = .ok { st with tags := st.tags ++ normalizeTagsAmended.go (it :: rest) }
      rw [ih st hrest]
      cases hterm : termOf it with
      | vStr s =>
        have hse : s = "" := by
          rw [hterm] at ht
          simp only [truthy] at ht
          by_cases hx : s = ""
          · exact hx
          · rw [if_neg hx] at ht; exact absurd rfl ht
        subst hse
        simp [normalizeTagsAmended.go, hterm]
      | vNull => simp [normalizeTagsAmended.go, hterm]
      | vInt n => simp [normalizeTagsAmended.go, hterm]
      | vFloat l => simp [normalizeTagsAmended.go, hterm]
      | vList l => simp [normalizeTagsAmended.go, hterm]
      | vDict d => simp [normalizeTagsAmended.go, hterm]

/-- C8, counterexample: contrary to the claim's "skip values empty after
trimming", a whitespace-only tag term is truthy, so the code keeps it (the
claim's rule would drop it). -/
theorem C8_counterexample :
    extract_stats [[("tags", Value.vList [Value.vStr " "])]] =
      .ok { initStats with tags := [" "], gvrOther := 1 } ∧
    normalizeTagsClaim (.vList [.vStr " "]) = [] ∧
    ([" "] : List String) ≠ [] := ⟨rfl, rfl, by decide⟩

/-- C8 (amended): for every record whose truthy tag terms are strings, tag
normalization takes each element of the tags list in order, extracting the
term field of a mapping and string-coercing any other element, skips any
resulting value that is falsy (None or the empty string — a whitespace-only
value is kept, untrimmed), lower-cases the kept values, and preserves order
and duplicates; the spec's example still normalizes as documented. -/
theorem C8_theorem :
    (∀ (st : Stats) (m : Record), (∀ it ∈ tagItems (getField m "tags"), StrField (termOf it)) →
      stepTags st m = .ok { st with tags := st.tags ++ normalizeTagsAmended (getField m "tags") }) ∧
    normalizeTagsAmended (.vList [.vDict [("term", .vStr "Hero")], .vStr "Myth"]) = ["hero", "myth"] ∧
    extract_stats [[("tags", Value.vList [Value.vDict [("term", Value.vStr "Hero")], Value.vStr "Myth"])]] =
      .ok { initStats with tags := ["hero", "myth"], gvrOther := 1 } := by
  refine ⟨?_, rfl, rfl⟩
  intro st m h
  unfold stepTags normalizeTagsAmended
  by_cases ht : truthy (getField m "tags") = true
  · rw [show pyOrV (getField m "tags") (.vList []) = getField m "tags" from by
      unfold pyOrV; rw [if_pos ht]]
    cases hv : getField m "tags" with
    | vList items =>
      refine tagFold_norm items st ?_
      intro it hit
      exact h it (by rw [hv]; exact hit)
    | vNull => simp [tagFold, tagItems, normalizeTagsAmended.go]
    | vInt n => simp [tagFold, tagItems, normalizeTagsAmended.go]
    | vFloat l => simp [tagFold, tagItems, normalizeTagsAmended.go]
    | vStr s => simp [tagFold, tagItems, normalizeTagsAmended.go]
    | vDict d => simp [tagFold, tagItems, normalizeTagsAmended.go]
  · rw [show pyOrV (getField m "tags") (.vList []) = .vList [] from by
      unfold pyOrV; rw [if_neg ht]]
    cases hv : getField m "tags" with
    | vList items =>
      cases items with
      | nil => simp [tagFold, tagItems, normalizeTagsAmended.go]
      | cons a rest => rw [hv] at ht; exact absurd rfl ht
    | vNull => simp [tagFold, tagItems, normalizeTagsAmended.go]
    | vInt n => simp [tagFold, tagItems, normalizeTagsAmended.go]
    | vFloat l => simp [tagFold, tagItems, normalizeTagsAmended.go]
    | vStr s => simp [tagFold, tagItems, normalizeTagsAmended.go]
    | vDict d => simp [tagFold, tagItems, normalizeTagsAmended.go]

/-- C8, witness: the spec's example record normalizes to `["hero", "myth"]`
through the amended rule. -/
theorem C8_witness :
    stepTags initStats [("tags", Value.vList [Value.vDict [("term", Value.vStr "Hero")], Value.vStr "Myth"])] =
      .ok { initStats with tags := ["hero", "myth"] } :=
  C8_theorem.1 initStats _ (by
    intro it hit
    rw [show tagItems (getField [("tags", Value.vList [Value.vDict [("term", Value.vStr "Hero")], Value.vStr "Myth"])] "tags") = [Value.vDict [("term", Value.vStr "Hero")], Value.vStr "Myth"] from rfl] at hit
    simp only [List.mem_cons, List.mem_singleton, List.not_mem_nil, or_false] at hit
    rcases hit with rfl | rfl
    · exact fun _ => ⟨"Hero", rfl⟩
    · exact fun _ => ⟨"Myth", rfl⟩)

/-- C9: for every record, accession-year handling appends the accessionYear
unchanged when it is an integer, the parsed value when it is a string of
decimal digits, and nothing in every other case, raising no exception (the
step is a total function of the record); the spec's example drops the float
silently. -/
theorem C9_theorem :
    (∀ (st : Stats) (m : Record),
      stepAcq st m = { st with acqs := st.acqs ++ (normalizeAccessionYear (getField m "accessionYear")).toList }) ∧
    extract_stats [[("accessionYear", Value.vStr "1923")], [("accessionYear", Value.vInt 1975)],
      [("accessionYear", Value.vFloat "19.5")]] =
      .ok { initStats with acqs := [1923, 1975], gvrOther := 3 } := by
  refine ⟨?_, rfl⟩
  intro st m
  unfold stepAcq normalizeAccessionYear
  cases hv : getField m "accessionYear" with
  | vInt n => simp
  | vStr s => by_cases hd : pyIsDigit s = true <;> simp [hd]
  | vNull => simp
  | vFloat l => simp
  | vList l => simp
  | vDict d => simp

/-- C10: a tag element that is a mapping with no term key, or whose term is
None or the empty string, is silently skipped: it changes no accumulator
(in particular the tag counts) and raises no error. -/
theorem C10_theorem (st : Stats) (d : List (String × Value))
    (h : getField d "term" = .vNull ∨ getField d "term" = .vStr "") :
    tagStep st (.vDict d) = .ok st := by
  unfold tagStep
  simp only [termOf]
  rcases h with h | h <;> rw [h] <;> rfl

/-- C10, witness: a mapping without a term key and a mapping with a None
term are both skipped. -/
theorem C10_witness :
    tagStep initStats (.vDict []) = .ok initStats ∧
    tagStep initStats (.vDict [("term", Value.vNull)]) = .ok initStats ∧
    tagStep initStats (.vDict [("term", Value.vStr "")]) = .ok initStats :=
  ⟨C10_theorem initStats [] (Or.inl rfl),
   C10_theorem initStats [("term", Value.vNull)] (Or.inl rfl),
   C10_theorem initStats [("term", Value.vStr "")] (Or.inr rfl)⟩
